import Mathlib

/-!
Verification of the `vedirect_m8` VE.Direct decoder and connection controller.

The decoder (`Vedirect.input_read` in `vedirect.py`) is a byte-driven state
machine; the controller (`ve_controller.py`) wraps it with timeout and port
recovery logic.  Python byte values are modelled as `Nat`, byte strings
(results of `ser.read(1)`) as `List Nat`, Python `float` times as `ℤ`, the
pending key/value dictionary as an association list, and raised exceptions as
`Except` errors.
-/

namespace VedirectM8

/-- The five decoder states, `(HEX, WAIT_HEADER, IN_KEY, IN_VALUE, IN_CHECKSUM) = range(5)`. -/
inductive VState where
  | HEX
  | WAIT_HEADER
  | IN_KEY
  | IN_VALUE
  | IN_CHECKSUM
deriving DecidableEq, Repr

/-- A decoded block: the Python `dict` of key/value pairs, as an association list. -/
abbrev Block := List (String × String)

/-- Python `d[k] = v`: overwrite the binding in place if the key exists, else append. -/
def dictSet : Block → String → String → Block
  | [], k, v => [(k, v)]
  | (k', v') :: rest, k, v =>
    if k' = k then (k, v) :: rest else (k', v') :: dictSet rest k v

/-- The mutable decoder fields of class `Vedirect`:
`state`, `key`, `value`, `bytes_sum`, `dict`. -/
structure VedState where
  state : VState
  key : String
  value : String
  bytes_sum : Nat
  dict : Block
deriving DecidableEq, Repr

/-- The initial decoder state, as set by `__init__` and by `init_data_read`:
`key = ''`, `value = ''`, `bytes_sum = 0`, `state = WAIT_HEADER`, `dict = {}`. -/
def initState : VedState :=
  { state := .WAIT_HEADER, key := "", value := "", bytes_sum := 0, dict := [] }

/-- Exception kinds raised by the code: `InputReadException`, `TimeoutException`,
`VedirectException`; `fuel` marks model runs whose supplied clock readings ran out. -/
inductive VErr where
  | inputRead
  | timeout
  | vedirect
  | fuel
deriving DecidableEq, Repr

/-- Byte constants from `__init__`: `header1 = ord(CR)`, `header2 = ord(LF)`,
`hexmarker = ord(COLON)`, `delimiter = ord(TAB)`. -/
def header1 : Nat := 13

/-- `header2 = ord(LF)`. -/
def header2 : Nat := 10

/-- `hexmarker = ord(COLON) = 0x3A`. -/
def hexmarker : Nat := 58

/-- `delimiter = ord(TAB)`. -/
def delimiter : Nat := 9

/-- The guard `byte == self.hexmarker` at the top of `input_read`.  In the source,
`byte` is a `bytes` object of length 1 while `self.hexmarker` is the `int` 58;
in Python 3 equality between `bytes` and `int` is always `False` (no coercion),
so this guard never fires, whatever the byte value is. -/
def hexCond (_b : Nat) : Bool := false

/-- `byte.decode(ascii)`: yields the character for byte values below 0x80 and
raises (`UnicodeDecodeError`, wrapped into `InputReadException`) otherwise. -/
def decodeAscii (b : Nat) : Except VErr Char :=
  if b < 128 then .ok (Char.ofNat b) else .error .inputRead

/-- `Vedirect.input_read` on a single byte value `b` (the source's `nbyte = ord(byte)`).
Returns the updated decoder fields and `some block` when a block is emitted.
Any exception inside the body is re-raised as `InputReadException` (`.inputRead`). -/
def input_read (b : Nat) (s : VedState) : Except VErr (VedState × Option Block) :=
  -- if byte == self.hexmarker and self.state != self.IN_CHECKSUM: self.state = self.HEX
  let s := if hexCond b ∧ s.state ≠ .IN_CHECKSUM then { s with state := .HEX } else s
  match s.state with
  | .WAIT_HEADER =>
    let s := { s with bytes_sum := s.bytes_sum + b }
    if b = header1 then .ok ({ s with state := .WAIT_HEADER }, none)
    else if b = header2 then .ok ({ s with state := .IN_KEY }, none)
    else .ok (s, none)
  | .IN_KEY =>
    let s := { s with bytes_sum := s.bytes_sum + b }
    if b = delimiter then
      if s.key = "Checksum" then .ok ({ s with state := .IN_CHECKSUM }, none)
      else .ok ({ s with state := .IN_VALUE }, none)
    else
      match decodeAscii b with
      | .error e => .error e
      | .ok c => .ok ({ s with key := s.key.push c }, none)
  | .IN_VALUE =>
    let s := { s with bytes_sum := s.bytes_sum + b }
    if b = header1 then
      .ok ({ s with state := .WAIT_HEADER, dict := dictSet s.dict s.key s.value,
                    key := "", value := "" }, none)
    else
      match decodeAscii b with
      | .error e => .error e
      | .ok c => .ok ({ s with value := s.value.push c }, none)
  | .IN_CHECKSUM =>
    let s := { s with bytes_sum := s.bytes_sum + b, key := "", value := "",
                      state := .WAIT_HEADER }
    if s.bytes_sum % 256 = 0 then
      .ok ({ s with bytes_sum := 0 }, some s.dict)
    else
      .ok ({ s with bytes_sum := 0 }, none)
  | .HEX =>
    let s := { s with bytes_sum := 0 }
    if b = header2 then .ok ({ s with state := .WAIT_HEADER }, none)
    else .ok (s, none)

/-- `input_read` as called on a raw read result (a `bytes` value, possibly empty).
The source's `nbyte = ord(byte)` raises unless the argument has length exactly 1;
that exception is wrapped into `InputReadException`. -/
def input_read_bytes (bs : List Nat) (s : VedState) : Except VErr (VedState × Option Block) :=
  match bs with
  | [b] => input_read b s
  | _ => .error .inputRead

/-- One call of `self._com.ser.read(1)` on a transport modelled as the list of
its successive read results: pops the next result, or yields the empty `bytes`
(a read timeout) when the list is exhausted. -/
def ser_read1 (stream : List (List Nat)) : List Nat × List (List Nat) :=
  match stream with
  | [] => ([], [])
  | r :: rest => (r, rest)

/-- `Vedirect.get_serial_packet`: read one byte; if it equals `b'\x00'` read one
more byte; feed the (final) byte to `input_read`.  Returns the decode outcome
together with the unconsumed remainder of the transport stream. -/
def get_serial_packet (s : VedState) (stream : List (List Nat)) :
    Except VErr (VedState × Option Block) × List (List Nat) :=
  let (byte, stream) := ser_read1 stream
  let (byte, stream) := if byte = [0] then ser_read1 stream else (byte, stream)
  (input_read_bytes byte s, stream)

/-- `Vedirect.is_timeout(elapsed, timeout)`: raises `TimeoutException` when
`elapsed >= timeout`, else returns `True`.  Python float clock values are modelled as `ℤ` (their ordering is all the code uses). -/
def is_timeout (elapsed timeout : ℤ) : Except VErr Bool :=
  if elapsed ≥ timeout then .error .timeout else .ok true

/-- The `while` loop of `Vedirect.read_data_single`.  `times` supplies the
successive values of `time.time()` (one per iteration; an exhausted clock ends
the model run with `.fuel`), `now` is the entry time, `timeout` the argument.
On success returns the packet plus the final decoder state and stream. -/
def read_data_single_loop (times : List ℤ) (now timeout : ℤ) (s : VedState)
    (stream : List (List Nat)) : Except VErr (Block × VedState × List (List Nat)) :=
  match times with
  | [] => .error .fuel
  | tim :: times =>
    match get_serial_packet s stream with
    | (.error e, _) => .error e
    | (.ok (s', p), stream') =>
      match p with
      | some packet => .ok (packet, s', stream')
      | none =>
        match is_timeout (tim - now) timeout with
        | .error e => .error e
        | .ok _ => read_data_single_loop times now timeout s' stream'

/-- `Vedirect.read_data_single(timeout)`: if the reader is not ready
(`is_ready()` false), log and return `None` without touching the transport or
the decoder; otherwise run the read loop.  The `ready` flag abstracts
`is_ready()`, whose serial-connection internals live outside this repository. -/
def read_data_single (ready : Bool) (times : List ℤ) (now timeout : ℤ) (s : VedState)
    (stream : List (List Nat)) : Except VErr (Option Block × VedState × List (List Nat)) :=
  if ready then
    match read_data_single_loop times now timeout s stream with
    | .error e => .error e
    | .ok (packet, s', stream') => .ok (some packet, s', stream')
  else
    .ok (none, s, stream)

/-- Feed a list of byte values to the decoder one call at a time, collecting
every emitted block in order. -/
def runBlocks (s : VedState) : List Nat → Except VErr (VedState × List Block)
  | [] => .ok (s, [])
  | b :: bs =>
    match input_read b s with
    | .error e => .error e
    | .ok (s', p) =>
      match runBlocks s' bs with
      | .error e => .error e
      | .ok (s'', blks) => .ok (s'', (p.toList) ++ blks)

/-- `runBlocks` augmented with a ghost frame: the list of byte values consumed
since the last checksum byte (a byte consumed in state `IN_CHECKSUM` ends a
frame and empties the ghost list).  The decoder component behaves exactly as in
`runBlocks`; the ghost records the current frame's bytes. -/
def runG (s : VedState) (frame : List Nat) : List Nat → Except VErr (VedState × List Nat)
  | [] => .ok (s, frame)
  | b :: bs =>
    let frame' := if s.state = .IN_CHECKSUM then [] else frame ++ [b]
    match input_read b s with
    | .error e => .error e
    | .ok (s', _) => runG s' frame' bs

/-- The loop-exit test of `Vedirect.read_data_callback`:
`isinstance(max_loops, int) and 0 < max_loops <= i`. -/
def max_loops_reached (ml : Option Nat) (i : Nat) : Bool :=
  match ml with
  | some m => 0 < m ∧ m ≤ i
  | none => false

/-- The `while` loop of `Vedirect.read_data_callback`.  `cbs` records, in order,
the arguments of every `callback_function(...)` invocation made so far; raised
exceptions carry the invocations made before the raise. -/
def read_data_callback_loop (timeout : ℤ) (ml : Option Nat) :
    List ℤ → ℤ → Nat → VedState → List (List Nat) → List (Option Block) →
    Except (VErr × List (Option Block)) (Bool × List (Option Block) × VedState × List (List Nat))
  | [], _, _, _, _, cbs => .error (.fuel, cbs)
  | tim :: times, now, i, s, stream, cbs =>
    match get_serial_packet s stream with
    | (.error e, _) => .error (e, cbs)
    | (.ok (s', p), stream') =>
      let (cbs, now, i) :=
        match p with
        | some packet => (cbs ++ [some packet], tim, i + 1)
        | none => (cbs, now, i)
      match is_timeout (tim - now) timeout with
      | .error e => .error (e, cbs)
      | .ok _ =>
        if max_loops_reached ml i then .ok (true, cbs, s', stream')
        else read_data_callback_loop timeout ml times now i s' stream' cbs

/-- `Vedirect.read_data_callback`: when the reader is not ready it raises
`VedirectException` (no callback invocation at all); otherwise it runs the loop,
whose only normal exit is `return True` on reaching `max_loops`. -/
def read_data_callback (ready : Bool) (times : List ℤ) (now timeout : ℤ) (ml : Option Nat)
    (s : VedState) (stream : List (List Nat)) :
    Except (VErr × List (Option Block)) (Bool × List (Option Block)) :=
  if ready then
    match read_data_callback_loop timeout ml times now 0 s stream [] with
    | .ok (r, cbs, _, _) => .ok (r, cbs)
    | .error e => .error e
  else .error (.vedirect, [])

/-- The loop-exit test of `VedirectController.read_data_callback`:
`Ut.is_int(max_loops) and i >= max_loops`. -/
def ctrl_max_loops_reached (ml : Option Nat) (i : Nat) : Bool :=
  match ml with
  | some m => m ≤ i
  | none => false

/-- The `while` loop of `VedirectController.read_data_callback`.  The `try`
around the first `get_serial_packet` catches `InputReadException` and the serial
exception kinds; the handler calls `wait_or_search_serial_connection`, which
either returns `True` — having reset the decoder through
`search_serial_port -> init_data_read` — or raises.  `reconnectOk` abstracts
that outcome.  After a successful reconnect, `now = tim = time.time()` takes a
fresh clock reading and a second, unprotected `get_serial_packet` runs.
The extra `fuel` argument only bounds the model's recursion. -/
def ctrl_read_data_callback_loop (reconnectOk : Bool) (timeout : ℤ) (ml : Option Nat) :
    Nat → List ℤ → ℤ → Nat → VedState → List (List Nat) → List (Option Block) →
    Except (VErr × List (Option Block)) (Bool × List (Option Block) × VedState × List (List Nat))
  | 0, _, _, _, _, _, cbs => .error (.fuel, cbs)
  | fuel + 1, times, now, i, s, stream, cbs =>
    match times with
    | [] => .error (.fuel, cbs)
    | tim :: times =>
      let attempt : Except (VErr × List (Option Block))
          (ℤ × ℤ × List ℤ × VedState × Option Block × List (List Nat)) :=
        match get_serial_packet s stream with
        | (.ok (s', p), stream') => .ok (tim, now, times, s', p, stream')
        | (.error _, stream') =>
          if reconnectOk then
            match times with
            | [] => .error (.fuel, cbs)
            | tim2 :: times2 =>
              match get_serial_packet initState stream' with
              | (.ok (s', p), stream'') => .ok (tim2, tim2, times2, s', p, stream'')
              | (.error e, _) => .error (e, cbs)
          else .error (.timeout, cbs)
      match attempt with
      | .error e => .error e
      | .ok (tim, now, times, s', p, stream') =>
        let (cbs, now, i) :=
          match p with
          | some packet => (cbs ++ [some packet], tim, i + 1)
          | none => (cbs, now, i)
        match is_timeout (tim - now) timeout with
        | .error e => .error (e, cbs)
        | .ok _ =>
          if ctrl_max_loops_reached ml i then .ok (true, cbs, s', stream')
          else ctrl_read_data_callback_loop reconnectOk timeout ml fuel times now i s' stream' cbs

/-- `VedirectController.read_data_callback`: ready → run the loop (whose only
normal exit, `return True` on `max_loops`, leaves the function without reaching
the trailing `callback_func(None)`); not ready → log the error, fall through to
the trailing `callback_func(None)` and return `None` (modelled as `false`). -/
def ctrl_read_data_callback (ready reconnectOk : Bool) (fuel : Nat) (times : List ℤ)
    (now timeout : ℤ) (ml : Option Nat) (s : VedState) (stream : List (List Nat)) :
    Except (VErr × List (Option Block)) (Bool × List (Option Block)) :=
  if ready then
    match ctrl_read_data_callback_loop reconnectOk timeout ml fuel times now 0 s stream [] with
    | .ok (r, cbs, _, _) => .ok (r, cbs)
    | .error e => .error e
  else .ok (false, [none])

/-- A serial test descriptor of kind `typeTest = "value"`: the decoded block
must map `key` to exactly `value` (spec §4.C, the only descriptor kind). -/
structure SerialTest where
  key : String
  value : String
deriving DecidableEq, Repr

/-- Modelled from the spec: `SerialTestHelper.run_serial_tests` (file
`sertest.py` is not under `src/`).  Per spec §4.C, `matches(block, tests)` is
true iff every descriptor of kind `"value"` has `block[key] == value`; a
missing or empty block matches no non-trivial test set. -/
def run_serial_tests (tests : List SerialTest) (data : Option Block) : Bool :=
  match data with
  | none => false
  | some d => tests.all fun t => List.lookup t.key d = some t.value

/-- One candidate port for `test_serial_ports`: `valid` abstracts
`SerialConnection.is_serial_port(port)`, `connectOk` the result of
`self._com.connect(serial_port=port, timeout=0)`, `ready` the reader's
`is_ready()` on that connection, and `times`/`stream` the clock readings and
transport bytes observed while probing it (`serconnect.py` is not under `src/`). -/
structure PortCandidate where
  valid : Bool
  connectOk : Bool
  ready : Bool
  times : List ℤ
  stream : List (List Nat)

/-- The controller fields `test_serial_ports` touches: the decoder, the live
serial read timeout `self._com.ser.timeout` and the configured timeout
`self._com._timeout`. -/
structure CtrlState where
  decoder : VedState
  serTimeout : ℤ
  confTimeout : ℤ

/-- `VedirectController.read_data_to_test`: when ready, start from `res = {}`,
read a single block with a 1-second timeout and merge it into `res`; an
exception during the read is swallowed, leaving `res = {}` (the decoder and
stream are then modelled as their pre-call values, which the caller never
relies on).  When not ready, return `None` (`res` keeps its initial value). -/
def read_data_to_test (ready : Bool) (times : List ℤ) (s : VedState)
    (stream : List (List Nat)) : Option Block × VedState × List (List Nat) :=
  if ready then
    match read_data_single ready times 0 1 s stream with
    | .ok (some d, s', stream') => (some d, s', stream')
    | .ok (none, s', stream') => (some [], s', stream')
    | .error _ => (some [], s, stream)
  else (none, s, stream)

/-- The `for port in ports` loop of `VedirectController.test_serial_ports`:
skip candidates that fail `is_serial_port` or whose `connect` fails; probe the
rest with `read_data_to_test`; on the first candidate whose data passes
`run_serial_tests`, restore the configured timeout onto the live serial object
(`self._com.ser.timeout = self._com._timeout`) and return `True`; otherwise
close and continue, returning `False` after the loop. -/
def test_serial_ports_loop (tests : List SerialTest) (w : CtrlState) :
    List PortCandidate → Bool × CtrlState
  | [] => (false, w)
  | p :: rest =>
    if p.valid then
      if p.connectOk then
        let (data, s', _) := read_data_to_test p.ready p.times w.decoder p.stream
        let w := { w with decoder := s' }
        if run_serial_tests tests data then
          (true, { w with serTimeout := w.confTimeout })
        else
          test_serial_ports_loop tests w rest
      else test_serial_ports_loop tests w rest
    else test_serial_ports_loop tests w rest

/-- `VedirectController.test_serial_ports(ports)`: raises `VedirectException`
unless `is_ready_to_search_ports()` (abstracted as `readyToSearch`); with an
empty candidate list the `Ut.is_list(ports, not_null=True)` guard fails and the
function falls through returning `None` (falsy, modelled as `false`). -/
def test_serial_ports (readyToSearch : Bool) (tests : List SerialTest) (w : CtrlState)
    (ports : List PortCandidate) : Except VErr (Bool × CtrlState) :=
  if readyToSearch then
    match ports with
    | [] => .ok (false, w)
    | _ => .ok (test_serial_ports_loop tests w ports)
  else .error .vedirect

/-- `VedirectController.search_serial_port`: when ready to search, list the
candidate ports (`ports` abstracts `self._com.get_serial_ports_list()`) and run
`test_serial_ports`; on success call `init_data_read()` — resetting every
decoder field to its initial value — and return `True`. -/
def search_serial_port (readyToSearch : Bool) (tests : List SerialTest) (w : CtrlState)
    (ports : List PortCandidate) : Except VErr (Bool × CtrlState) :=
  if readyToSearch then
    match test_serial_ports readyToSearch tests w ports with
    | .error e => .error e
    | .ok (true, w') => .ok (true, { w' with decoder := initState })
    | .ok (false, w') => .ok (false, w')
  else .ok (false, w)

/-- A valid VE.Direct text frame carrying the single pair `A = 1`:
`CR LF A TAB 1 CR LF C h e c k s u m TAB 27`, whose byte sum is `1024 = 4 * 256`. -/
def frameA : List Nat :=
  [13, 10, 65, 9, 49, 13, 10, 67, 104, 101, 99, 107, 115, 117, 109, 9, 27]

/-- A valid VE.Direct text frame carrying the single pair `B = 2`:
`CR LF B TAB 2 CR LF C h e c k s u m TAB 25`, whose byte sum is `1024`. -/
def frameB : List Nat :=
  [13, 10, 66, 9, 50, 13, 10, 67, 104, 101, 99, 107, 115, 117, 109, 9, 25]

/-- `frameA` with the HEX message `: A LF` (bytes `58 65 10`) injected directly
after the opening `CR LF`, as in spec §8 scenario 3. -/
def frameAhex : List Nat :=
  [13, 10, 58, 65, 10, 65, 9, 49, 13, 10, 67, 104, 101, 99, 107, 115, 117, 109, 9, 27]

/-- The probe frame `frameA`, delivered one byte per `ser.read(1)` call. -/
def streamA : List (List Nat) := frameA.map fun b => [b]

/-!  ## Claim theorems -/

/-- C1: the claim says a COLON byte outside `IN_CHECKSUM` moves the decoder to
`HEX` and zeroes `bytes_sum`.  The code's guard `byte == self.hexmarker`
compares `bytes` with `int` and is identically false, so feeding COLON (0x3A)
to a fresh decoder (state `WAIT_HEADER`, which is not `IN_CHECKSUM`) leaves the
state `WAIT_HEADER` — not `HEX` — and adds 0x3A to `bytes_sum` instead of
zeroing it. -/
theorem claim1_hex_transition_dead :
    input_read 58 initState =
      .ok ({ state := .WAIT_HEADER, key := "", value := "", bytes_sum := 58, dict := [] },
           none) ∧
    hexCond 58 = false :=
  ⟨rfl, rfl⟩

/-- C2 counterexample: after the valid frame `frameA` the decoder has
re-entered `WAIT_HEADER` past the checksum byte with `bytes_sum = 0`, but the
pending mapping still holds the committed pair `("A", "1")` — it is not reset
to empty — and after a second valid frame `frameB` the second emitted block
still contains the key `A` committed during the first frame. -/
theorem claim2_pending_not_reset_cex :
    runBlocks initState frameA =
      .ok ({ state := .WAIT_HEADER, key := "", value := "", bytes_sum := 0,
             dict := [("A", "1")] },
           [[("A", "1")]]) ∧
    runBlocks initState (frameA ++ frameB) =
      .ok ({ state := .WAIT_HEADER, key := "", value := "", bytes_sum := 0,
             dict := [("A", "1"), ("B", "2")] },
           [[("A", "1")], [("A", "1"), ("B", "2")]]) :=
  ⟨rfl, rfl⟩

/-- C2 amended: consuming the checksum byte in `IN_CHECKSUM` always re-enters
`WAIT_HEADER` with `bytes_sum = 0` and empty key/value buffers, and emits the
pending mapping exactly when the sum is divisible by 256 — but the pending
mapping itself is left untouched, so earlier committed keys persist into later
emitted blocks. -/
theorem claim2_checksum_reentry_amended (b : Nat) (s : VedState)
    (h : s.state = .IN_CHECKSUM) :
    input_read b s =
      .ok ({ state := .WAIT_HEADER, key := "", value := "", bytes_sum := 0,
             dict := s.dict },
           if (s.bytes_sum + b) % 256 = 0 then some s.dict else none) := by
  obtain ⟨st, k, v, bsum, d⟩ := s
  simp only at h
  subst h
  simp only [input_read, hexCond, Bool.false_eq_true, false_and, if_neg, ite_false]
  split <;> rfl

/-- C2 amended, witnessed on the checksum byte of `frameA`: the decoder state
reached just before the checksum byte re-enters `WAIT_HEADER` with `bytes_sum`
zeroed and the pending mapping `[("A", "1")]` intact. -/
theorem claim2_checksum_reentry_amended_witness :
    input_read 27 { state := .IN_CHECKSUM, key := "Checksum", value := "",
                    bytes_sum := 997, dict := [("A", "1")] } =
      .ok ({ state := .WAIT_HEADER, key := "", value := "", bytes_sum := 0,
             dict := [("A", "1")] },
           if (997 + 27) % 256 = 0 then some [("A", "1")] else none) :=
  claim2_checksum_reentry_amended 27 _ rfl

/-- C4: the claim says an injected HEX message (`:` through `LF`) leaves the
surrounding frame's block and `bytes_sum` unchanged.  Because the COLON guard
never fires, the HEX bytes are absorbed into the key buffer and the checksum
accumulator: `frameA` alone emits its block, but `frameA` with `: A LF`
injected after the opening `CR LF` emits nothing (the frame's sum is no longer
0 mod 256) and the HEX bytes have leaked into the pending key. -/
theorem claim4_embedded_hex_breaks_frame :
    runBlocks initState frameA =
      .ok ({ state := .WAIT_HEADER, key := "", value := "", bytes_sum := 0,
             dict := [("A", "1")] },
           [[("A", "1")]]) ∧
    runBlocks initState frameAhex =
      .ok ({ state := .WAIT_HEADER, key := "", value := "", bytes_sum := 0,
             dict := [(":A\nA", "1")] },
           []) :=
  ⟨rfl, rfl⟩

/-- C5: `is_timeout(elapsed, limit)` raises `TimeoutException` whenever
`elapsed >= limit` (equality included), and returns `True` whenever
`elapsed < limit`. -/
theorem claim5_is_timeout_boundary (elapsed timeout : ℤ) :
    (timeout ≤ elapsed → is_timeout elapsed timeout = .error .timeout) ∧
    (elapsed < timeout → is_timeout elapsed timeout = .ok true) := by
  constructor <;> intro h <;> unfold is_timeout
  · rw [if_pos h]
  · rw [if_neg (not_le.mpr h)]

/-- C5 witnessed at the boundary: `elapsed = limit = 60` raises, while
`elapsed = 59 < limit = 60` returns `True`. -/
theorem claim5_is_timeout_boundary_witness :
    is_timeout 60 60 = .error .timeout ∧ is_timeout 59 60 = .ok true :=
  ⟨(claim5_is_timeout_boundary 60 60).1 (by norm_num),
   (claim5_is_timeout_boundary 59 60).2 (by norm_num)⟩

/-- C7 counterexample: the claim says a non-ASCII byte (≥ 0x80) in `IN_KEY` or
`IN_VALUE` is appended as-is with no error.  In fact `byte.decode(ascii)`
raises, surfacing as `InputReadException`: byte 0x80 fed in `IN_KEY` (after
`CR LF`) errors, and likewise in `IN_VALUE` (after `CR LF A TAB`). -/
theorem claim7_non_ascii_raises_cex :
    runBlocks initState [13, 10, 128] = .error .inputRead ∧
    runBlocks initState [13, 10, 65, 9, 128] = .error .inputRead :=
  ⟨rfl, rfl⟩

/-- C7 amended: a non-separator byte consumed in `IN_KEY` or `IN_VALUE` is
appended as-is to the corresponding buffer only when it is ASCII (< 0x80);
a byte ≥ 0x80 raises an `InputRead` error instead. -/
theorem claim7_byte_append_amended (b : Nat) (s : VedState) :
    (s.state = .IN_KEY → b ≠ delimiter →
      (b < 128 → input_read b s =
        .ok ({ s with bytes_sum := s.bytes_sum + b, key := s.key.push (Char.ofNat b) },
             none)) ∧
      (128 ≤ b → input_read b s = .error .inputRead)) ∧
    (s.state = .IN_VALUE → b ≠ header1 →
      (b < 128 → input_read b s =
        .ok ({ s with bytes_sum := s.bytes_sum + b, value := s.value.push (Char.ofNat b) },
             none)) ∧
      (128 ≤ b → input_read b s = .error .inputRead)) := by
  obtain ⟨st, k, v, bsum, d⟩ := s
  constructor <;> intro hst hsep <;> simp only at hst <;> subst hst <;>
    constructor <;> intro hb <;>
    simp only [input_read, hexCond, Bool.false_eq_true, false_and, if_neg, ite_false,
               decodeAscii] <;>
    rw [if_neg hsep]
  · rw [if_pos hb]
  · rw [if_neg (by omega)]
  · rw [if_pos hb]
  · rw [if_neg (by omega)]

/-- C7 amended, witnessed: in `IN_KEY`, byte 0x41 (`A`) is appended to the key
buffer while byte 0x80 raises `InputRead`. -/
theorem claim7_byte_append_amended_witness :
    input_read 65 { state := .IN_KEY, key := "", value := "", bytes_sum := 23, dict := [] } =
      .ok ({ state := .IN_KEY, key := "A", value := "", bytes_sum := 88, dict := [] },
           none) ∧
    input_read 128 { state := .IN_KEY, key := "", value := "", bytes_sum := 23, dict := [] } =
      .error .inputRead :=
  ⟨((claim7_byte_append_amended 65 _).1 rfl (by decide)).1 (by norm_num),
   ((claim7_byte_append_amended 128 _).1 rfl (by decide)).2 (by norm_num)⟩

/-- A successful `input_read` call that emits a block was necessarily consuming
the checksum byte: the prior state was `IN_CHECKSUM`, the accumulated sum plus
this byte is divisible by 256, and the block is the pending mapping. -/
theorem input_read_emit (b : Nat) (s s' : VedState) (blk : Block)
    (h : input_read b s = .ok (s', some blk)) :
    s.state = .IN_CHECKSUM ∧ (s.bytes_sum + b) % 256 = 0 ∧ blk = s.dict := by
  obtain ⟨st, k, v, bsum, d⟩ := s
  cases st <;>
    simp only [input_read, hexCond, Bool.false_eq_true, false_and, if_neg, ite_false] at h <;>
    (try split at h) <;> (try split at h) <;> simp_all

/-- A successful `input_read` call never moves out of the text-frame states
into `HEX`, and its effect on `bytes_sum` is: zeroed when consuming the
checksum byte, increased by the byte value otherwise. -/
theorem input_read_step (b : Nat) (s s' : VedState) (p : Option Block)
    (h : input_read b s = .ok (s', p)) (hhex : s.state ≠ .HEX) :
    s'.state ≠ .HEX ∧
    s'.bytes_sum = if s.state = .IN_CHECKSUM then 0 else s.bytes_sum + b := by
  obtain ⟨st, k, v, bsum, d⟩ := s
  cases st
  case HEX => exact absurd rfl hhex
  all_goals
    simp only [input_read, hexCond, Bool.false_eq_true, false_and, if_neg, ite_false] at h
  all_goals
    (try split at h) <;> (try split at h) <;> simp_all
  all_goals obtain ⟨h1, h2⟩ := h
  all_goals subst h1
  all_goals simp

/-- The ghost run invariant: starting from a state outside `HEX` whose
`bytes_sum` equals the sum of the ghost frame bytes, any successful run keeps
the state outside `HEX` and keeps `bytes_sum` equal to the sum of the bytes
consumed since the last checksum byte. -/
theorem runG_inv (bs : List Nat) :
    ∀ (s : VedState) (frame : List Nat) (s2 : VedState) (f2 : List Nat),
      s.state ≠ .HEX → s.bytes_sum = frame.sum →
      runG s frame bs = .ok (s2, f2) →
      s2.state ≠ .HEX ∧ s2.bytes_sum = f2.sum := by
  induction bs with
  | nil =>
    intro s frame s2 f2 hhex hsum h
    simp only [runG] at h
    cases h
    exact ⟨hhex, hsum⟩
  | cons b bs ih =>
    intro s frame s2 f2 hhex hsum h
    simp only [runG] at h
    cases hir : input_read b s with
    | error e => rw [hir] at h; cases h
    | ok sp =>
      obtain ⟨s', p⟩ := sp
      rw [hir] at h
      obtain ⟨hhex', hbs⟩ := input_read_step b s s' p hir hhex
      by_cases hc : s.state = .IN_CHECKSUM
      · refine ih s' [] s2 f2 hhex' ?_ (by simpa [hc] using h)
        simpa [hc] using hbs
      · refine ih s' (frame ++ [b]) s2 f2 hhex' ?_ (by simpa [hc] using h)
        simp [hc] at hbs
        simp [hbs, hsum]

/-- C3: for any byte sequence fed to a freshly-reset decoder, a call that
returns a block does so only when the 8-bit wrapping sum over the current
frame's bytes (the ghost frame: every byte consumed since the previous
checksum byte, plus the emitting byte itself) is 0 mod 256. -/
theorem claim3_block_only_on_zero_frame_sum (bs : List Nat) (s : VedState)
    (frame : List Nat) (b : Nat) (s' : VedState) (blk : Block)
    (hrun : runG initState [] bs = .ok (s, frame))
    (hemit : input_read b s = .ok (s', some blk)) :
    (frame.sum + b) % 256 = 0 := by
  obtain ⟨hhex, hsum⟩ :=
    runG_inv bs initState [] s frame (by simp [initState]) (by simp [initState]) hrun
  obtain ⟨-, hmod, -⟩ := input_read_emit b s s' blk hemit
  rw [hsum] at hmod
  exact hmod

/-- C3 witnessed on `frameA`: its first 16 bytes take the fresh decoder to the
checksum-wait state with ghost frame equal to those bytes, the 17th byte (27)
emits the block, and indeed `(sum + 27) % 256 = 0`. -/
theorem claim3_block_only_on_zero_frame_sum_witness :
    ((List.take 16 frameA).sum + 27) % 256 = 0 :=
  claim3_block_only_on_zero_frame_sum (List.take 16 frameA)
    { state := .IN_CHECKSUM, key := "Checksum", value := "", bytes_sum := 997,
      dict := [("A", "1")] }
    (List.take 16 frameA) 27
    { state := .WAIT_HEADER, key := "", value := "", bytes_sum := 0, dict := [("A", "1")] }
    [("A", "1")] rfl rfl

/-- The callback-invocation list carried by either outcome of a callback loop. -/
def cbsOf (r : Except (VErr × List (Option Block))
    (Bool × List (Option Block) × VedState × List (List Nat))) : List (Option Block) :=
  match r with
  | .ok (_, cbs, _, _) => cbs
  | .error (_, cbs) => cbs

/-- Invariant of the base `Vedirect.read_data_callback` loop: the loop only
ever appends `some packet` invocations, so if the accumulated invocation list
holds no `none`, neither does the invocation list of any loop outcome. -/
theorem read_data_callback_loop_no_none (timeout : ℤ) (ml : Option Nat) :
    ∀ (times : List ℤ) (now : ℤ) (i : Nat) (s : VedState) (stream : List (List Nat))
      (cbs : List (Option Block)), Option.none ∉ cbs →
      Option.none ∉ cbsOf (read_data_callback_loop timeout ml times now i s stream cbs) := by
  intro times
  induction times with
  | nil => intro now i s stream cbs h; simpa [read_data_callback_loop, cbsOf] using h
  | cons tim times ih =>
    intro now i s stream cbs h
    unfold read_data_callback_loop
    rcases hg : get_serial_packet s stream with ⟨res, stream'⟩
    cases res with
    | error e => simpa [cbsOf] using h
    | ok sp =>
      obtain ⟨s', p⟩ := sp
      have hcbs : ∀ p' : Block, Option.none ∉ cbs ++ [some p'] := by
        intro p'
        simp [List.mem_append, h]
      cases p with
      | none =>
        cases ht : is_timeout (tim - now) timeout with
        | error e => simp [ht, cbsOf]; exact h
        | ok b =>
          by_cases hm : max_loops_reached ml i = true
          · simp [ht, hm, cbsOf]; exact h
          · simp [ht, hm]; exact ih now i s' stream' cbs h
      | some packet =>
        cases ht : is_timeout (tim - tim) timeout with
        | error e =>
          rw [sub_self] at ht
          simp [ht, cbsOf]; exact h
        | ok b =>
          rw [sub_self] at ht
          by_cases hm : max_loops_reached ml (i + 1) = true
          · simp [ht, hm, cbsOf]; exact h
          · simp [ht, hm]; exact ih tim (i + 1) s' stream' (cbs ++ [some packet]) (hcbs packet)

/-- Invariant of the `VedirectController.read_data_callback` loop: same as for
the base loop — every invocation appended is `some packet`, on the reconnect
path included. -/
theorem ctrl_read_data_callback_loop_no_none (reconnectOk : Bool) (timeout : ℤ)
    (ml : Option Nat) :
    ∀ (fuel : Nat) (times : List ℤ) (now : ℤ) (i : Nat) (s : VedState)
      (stream : List (List Nat)) (cbs : List (Option Block)), Option.none ∉ cbs →
      Option.none ∉ cbsOf
        (ctrl_read_data_callback_loop reconnectOk timeout ml fuel times now i s stream cbs) := by
  intro fuel
  induction fuel with
  | zero => intro times now i s stream cbs h; simpa [ctrl_read_data_callback_loop, cbsOf] using h
  | succ n ih =>
    intro times now i s stream cbs h
    unfold ctrl_read_data_callback_loop
    cases times with
    | nil => simpa [cbsOf] using h
    | cons tim times =>
      have hcbs : ∀ p' : Block, Option.none ∉ cbs ++ [some p'] := by
        intro p'
        simp [List.mem_append, h]
      have hstep : ∀ (tim' now' : ℤ) (times' : List ℤ) (s' : VedState) (p : Option Block)
          (stream' : List (List Nat)),
          Option.none ∉ cbsOf
            (match p with
             | some packet =>
               match is_timeout (tim' - tim') timeout with
               | .error e => .error (e, cbs ++ [some packet])
               | .ok _ =>
                 if ctrl_max_loops_reached ml (i + 1) then
                   .ok (true, cbs ++ [some packet], s', stream')
                 else ctrl_read_data_callback_loop reconnectOk timeout ml n times' tim'
                        (i + 1) s' stream' (cbs ++ [some packet])
             | none =>
               match is_timeout (tim' - now') timeout with
               | .error e => .error (e, cbs)
               | .ok _ =>
                 if ctrl_max_loops_reached ml i then .ok (true, cbs, s', stream')
                 else ctrl_read_data_callback_loop reconnectOk timeout ml n times' now'
                        i s' stream' cbs) := by
        intro tim' now' times' s' p stream'
        cases p with
        | none =>
          cases ht : is_timeout (tim' - now') timeout with
          | error e => simp [ht, cbsOf]; exact h
          | ok b =>
            by_cases hm : ctrl_max_loops_reached ml i = true
            · simp [ht, hm, cbsOf]; exact h
            · simp [ht, hm]; exact ih times' now' i s' stream' cbs h
        | some packet =>
          cases ht : is_timeout (tim' - tim') timeout with
          | error e =>
            rw [sub_self] at ht
            simp [ht, cbsOf]; exact h
          | ok b =>
            rw [sub_self] at ht
            by_cases hm : ctrl_max_loops_reached ml (i + 1) = true
            · simp [ht, hm, cbsOf]; exact h
            · simp [ht, hm]
              exact ih times' tim' (i + 1) s' stream' (cbs ++ [some packet]) (hcbs packet)
      rcases hg : get_serial_packet s stream with ⟨res, stream'⟩
      cases res with
      | ok sp =>
        obtain ⟨s', p⟩ := sp
        cases p with
        | none => exact hstep tim now times s' none stream'
        | some packet => exact hstep tim now times s' (some packet) stream'
      | error e0 =>
        by_cases hr : reconnectOk
        · cases times with
          | nil => simp [hr, cbsOf]; simpa [cbsOf] using h
          | cons tim2 times2 =>
            rcases hg2 : get_serial_packet initState stream' with ⟨res2, stream''⟩
            cases res2 with
            | error e2 => simp [hr, hg2, cbsOf]; simpa [cbsOf] using h
            | ok sp2 =>
              obtain ⟨s2, p2⟩ := sp2
              cases p2 with
              | none => simpa [hr, hg2] using hstep tim2 tim2 times2 s2 none stream''
              | some packet2 =>
                simpa [hr, hg2] using hstep tim2 tim2 times2 s2 (some packet2) stream''
        · simpa [hr, cbsOf] using h

/-- C6 counterexample: a ready controller delivering exactly `max_loops = 1`
block over `streamA` terminates normally with `return True`, and the recorded
callback invocations are just the block — the `none` sentinel is never
invoked on this normal exit, contradicting the claim. -/
theorem claim6_sentinel_not_invoked_cex :
    ctrl_read_data_callback true false 17 (List.replicate 17 0) 0 60 (some 1)
      initState streamA = .ok (true, [some [("A", "1")]]) ∧
    Option.none ∉ [some [("A", "1")]] :=
  ⟨rfl, by decide⟩

/-- C6 amended: when `read_data_callback` terminates normally on reaching
`max_loops` it returns `True` without ever invoking the callback with the
`none` sentinel, and error exits likewise never invoke the sentinel; the
controller version invokes `callback(none)` exactly once only on its
not-ready exit, while the base `Vedirect` version raises when not ready and
never invokes the sentinel at all. -/
theorem claim6_callback_sentinel_amended (reconnectOk : Bool) (fuel : Nat)
    (times : List ℤ) (now timeout : ℤ) (ml : Option Nat) (s : VedState)
    (stream : List (List Nat)) :
    (ctrl_read_data_callback false reconnectOk fuel times now timeout ml s stream =
      .ok (false, [none]) ∧
     read_data_callback false times now timeout ml s stream = .error (.vedirect, [])) ∧
    (∀ r cbs, ctrl_read_data_callback true reconnectOk fuel times now timeout ml s stream =
        .ok (r, cbs) → Option.none ∉ cbs) ∧
    (∀ e cbs, ctrl_read_data_callback true reconnectOk fuel times now timeout ml s stream =
        .error (e, cbs) → Option.none ∉ cbs) ∧
    (∀ r cbs, read_data_callback true times now timeout ml s stream =
        .ok (r, cbs) → Option.none ∉ cbs) ∧
    (∀ e cbs, read_data_callback true times now timeout ml s stream =
        .error (e, cbs) → Option.none ∉ cbs) := by
  have hctrl := ctrl_read_data_callback_loop_no_none reconnectOk timeout ml fuel times now
    0 s stream [] (by simp)
  have hbase := read_data_callback_loop_no_none timeout ml times now 0 s stream [] (by simp)
  refine ⟨⟨rfl, rfl⟩, ?_, ?_, ?_, ?_⟩
  · intro r cbs h
    unfold ctrl_read_data_callback at h
    cases hl : ctrl_read_data_callback_loop reconnectOk timeout ml fuel times now 0 s stream []
      with
    | ok q => rw [if_pos rfl, hl] at h; cases h; simpa [hl, cbsOf] using hctrl
    | error e => rw [if_pos rfl, hl] at h; cases h
  · intro e cbs h
    unfold ctrl_read_data_callback at h
    cases hl : ctrl_read_data_callback_loop reconnectOk timeout ml fuel times now 0 s stream []
      with
    | ok q => rw [if_pos rfl, hl] at h; cases h
    | error e' => rw [if_pos rfl, hl] at h; cases h; simpa [hl, cbsOf] using hctrl
  · intro r cbs h
    unfold read_data_callback at h
    cases hl : read_data_callback_loop timeout ml times now 0 s stream [] with
    | ok q => rw [if_pos rfl, hl] at h; cases h; simpa [hl, cbsOf] using hbase
    | error e => rw [if_pos rfl, hl] at h; cases h
  · intro e cbs h
    unfold read_data_callback at h
    cases hl : read_data_callback_loop timeout ml times now 0 s stream [] with
    | ok q => rw [if_pos rfl, hl] at h; cases h
    | error e' => rw [if_pos rfl, hl] at h; cases h; simpa [hl, cbsOf] using hbase

/-- C6 amended, witnessed: a non-ready controller run yields the single
sentinel invocation, and the ready `max_loops = 1` run over `streamA`
terminates with no sentinel among its invocations. -/
theorem claim6_callback_sentinel_amended_witness :
    ctrl_read_data_callback false false 1 [] 0 60 none initState [] =
      .ok (false, [none]) ∧
    Option.none ∉ [some [("A", "1")]] :=
  ⟨((claim6_callback_sentinel_amended false 1 [] 0 60 none initState []).1).1,
   (claim6_callback_sentinel_amended false 17 (List.replicate 17 0) 0 60 (some 1)
      initState streamA).2.1 true [some [("A", "1")]] rfl⟩

/-- Invariant of the `test_serial_ports` port loop: the configured timeout is
never modified, and a `True` outcome has just restored it onto the live serial
object. -/
theorem test_serial_ports_loop_timeout (tests : List SerialTest) :
    ∀ (ports : List PortCandidate) (w w' : CtrlState),
      test_serial_ports_loop tests w ports = (true, w') →
      w'.serTimeout = w'.confTimeout ∧ w'.confTimeout = w.confTimeout := by
  intro ports
  induction ports with
  | nil => intro w w' h; simp [test_serial_ports_loop] at h
  | cons p rest ih =>
    intro w w' h
    unfold test_serial_ports_loop at h
    by_cases hv : p.valid = true
    · rw [if_pos hv] at h
      by_cases hc : p.connectOk = true
      · rw [if_pos hc] at h
        rcases hr : read_data_to_test p.ready p.times w.decoder p.stream with ⟨data, s', rest'⟩
        rw [hr] at h
        simp only at h
        by_cases hj : run_serial_tests tests data = true
        · rw [if_pos hj] at h
          cases h
          exact ⟨rfl, rfl⟩
        · rw [if_neg hj] at h
          exact ih { w with decoder := s' } w' h
      · rw [if_neg hc] at h
        exact ih w w' h
    · rw [if_neg hv] at h
      exact ih w w' h

/-- C8: whenever `search_serial_port` succeeds (a candidate port produced a
block matching every identity test), the returned controller state carries the
configured read timeout restored onto the live serial object
(`ser.timeout = _timeout`) and a decoder reset to its initial state
(`init_data_read`), before any byte of the new port is used for normal
reading. -/
theorem claim8_recovery_restores_timeout_and_resets (readyToSearch : Bool)
    (tests : List SerialTest) (w : CtrlState) (ports : List PortCandidate)
    (w' : CtrlState)
    (h : search_serial_port readyToSearch tests w ports = .ok (true, w')) :
    w'.decoder = initState ∧ w'.serTimeout = w.confTimeout := by
  unfold search_serial_port at h
  by_cases hr : readyToSearch = true
  · rw [if_pos hr] at h
    unfold test_serial_ports at h
    rw [if_pos hr] at h
    cases ports with
    | nil => simp at h
    | cons p rest =>
      rcases hl : test_serial_ports_loop tests w (p :: rest) with ⟨ok?, w''⟩
      rw [hl] at h
      cases ok? with
      | true =>
        simp only at h
        cases h
        obtain ⟨h1, h2⟩ := test_serial_ports_loop_timeout tests (p :: rest) w w'' hl
        exact ⟨rfl, by simpa [h2] using h1⟩
      | false => simp at h
  · rw [if_neg hr] at h
    simp at h

/-- The identity test used to witness a successful port recovery. -/
def testsW : List SerialTest := [{ key := "A", value := "1" }]

/-- A candidate port that answers the probe with `frameA`. -/
def portW : PortCandidate :=
  { valid := true, connectOk := true, ready := true,
    times := List.replicate 17 0, stream := streamA }

/-- A controller state whose live serial timeout (0, the probing value)
differs from the configured timeout 10. -/
def wW : CtrlState := { decoder := initState, serTimeout := 0, confTimeout := 10 }

/-- C8 witnessed: searching with `testsW` over the single candidate `portW`
succeeds, and the resulting state has the decoder reset and the configured
timeout restored. -/
theorem claim8_recovery_restores_timeout_and_resets_witness :
    ({ decoder := initState, serTimeout := 10, confTimeout := 10 } : CtrlState).decoder
      = initState ∧
    ({ decoder := initState, serTimeout := 10, confTimeout := 10 } : CtrlState).serTimeout
      = wW.confTimeout :=
  claim8_recovery_restores_timeout_and_resets true testsW wW [portW]
    { decoder := initState, serTimeout := 10, confTimeout := 10 } rfl

/-- C9: when the first transport read yields the single byte `0x00`,
`get_serial_packet` performs exactly one additional read (the remaining stream
is `rest`) and feeds that second read result — whatever it is — to the
decoder; the initial NUL byte is never fed. -/
theorem claim9_nul_skip (s : VedState) (r : List Nat) (rest : List (List Nat)) :
    get_serial_packet s ([0] :: r :: rest) = (input_read_bytes r s, rest) := rfl

/-- C10: `read_data_single` called while the serial connection is not ready
returns `None` without raising, without consuming any byte from the transport,
and without modifying any decoder field. -/
theorem claim10_not_ready_noop (times : List ℤ) (now timeout : ℤ) (s : VedState)
    (stream : List (List Nat)) :
    read_data_single false times now timeout s stream = .ok (none, s, stream) := rfl

end VedirectM8
